import Mathlib

/-!
# Verification of the `backboard` cockpit core

A shallow embedding of the extension-request aggregation, per-step tracking
lifecycle, buffer reclamation and benchmark checks of `backboard/cockpit.py`
and `backboard/benchmark/benchmark.py`, together with spec-level models of
the quadratic-fit step-size routines (`backboard/quantities/alpha.py`).

Python dictionaries mapping transform keys to function objects are embedded
as association lists `List (String × ℕ)`: keys are the dictionary keys and a
natural number stands for the identity of a function object (two entries
carry the same function object exactly when the numbers agree).  Exceptions
are embedded with `Except String`.
-/

namespace Backboard

/-- `backpack.extensions.BatchGradTransforms`: a named-transform extension
request carrying a dictionary from transform names to function objects
(`get_transforms` returns this dictionary). -/
structure BatchGradTransforms where
  transforms : List (String × ℕ)
deriving DecidableEq, Repr

/-- `t.get_transforms()` — accessor for the transform dictionary. -/
def BatchGradTransforms.get_transforms (t : BatchGradTransforms) :
    List (String × ℕ) :=
  t.transforms

/-- Insertion into a Python dictionary: `d[k] = v` overwrites the value in
place when `k` is already a key and appends the binding otherwise
(Python dictionaries preserve insertion order). -/
def dictInsert (d : List (String × ℕ)) (k : String) (v : ℕ) :
    List (String × ℕ) :=
  if d.any (fun p => p.1 = k) then
    d.map (fun p => if p.1 = k then (k, v) else p)
  else
    d ++ [(k, v)]

/-- Python's `d.update(t)`: insert every binding of `t` into `d`, in order. -/
def dictUpdate (d t : List (String × ℕ)) : List (String × ℕ) :=
  t.foldl (fun acc p => dictInsert acc p.1 p.2) d

/-- `Cockpit._merge_batch_grad_transforms` (`backboard/cockpit.py:325-342`):
collect the key lists of all transform dictionaries, raise `ValueError` as
soon as the concatenated key list has a repeated key (`len(keys) ==
len(set(keys))` is the source's test), otherwise `update` an empty
dictionary with each transform dictionary in turn. -/
def mergeBatchGradTransforms (batch_grad_transforms : List BatchGradTransforms) :
    Except String BatchGradTransforms :=
  let transforms := batch_grad_transforms.map BatchGradTransforms.get_transforms
  let keys := transforms.foldl (fun ks t => ks ++ t.map Prod.fst) []
  if keys.length = keys.dedup.length then
    Except.ok ⟨transforms.foldl dictUpdate []⟩
  else
    Except.error ("Found non-unique transforms: " ++ toString keys)

/-- The kind of a BackPACK extension request: Python's `type(e)`.  The
extension classes themselves live in the external `backpack` library; the
kinds listed are the ones the cockpit requests. -/
inductive ExtKind where
  | batchGradK
  | diagGGNExactK
  | diagGGNMCK
  | diagHessianK
  | batchGradTransformsK
deriving DecidableEq, Repr

/-- A BackPACK extension request instance.  Payloads distinguish instances
of the same kind with different configuration (e.g. the number of
Monte-Carlo samples of `DiagGGNMC`); `BatchGradTransforms` carries its
transform dictionary. -/
inductive Extension where
  | batchGrad
  | diagGGNExact
  | diagGGNMC (mc_samples : ℕ)
  | diagHessian
  | batchGradTransforms (t : BatchGradTransforms)
deriving DecidableEq, Repr

/-- Python's `type(e)` on an extension instance. -/
def Extension.kind : Extension → ExtKind
  | .batchGrad => .batchGradK
  | .diagGGNExact => .diagGGNExactK
  | .diagGGNMC _ => .diagGGNMCK
  | .diagHessian => .diagHessianK
  | .batchGradTransforms _ => .batchGradTransformsK

/-- `e.savefield`: the name of the field the BackPACK backend attaches to
each parameter for this extension (fixed by the external library). -/
def Extension.savefield : Extension → String
  | .batchGrad => "grad_batch"
  | .diagGGNExact => "diag_ggn_exact"
  | .diagGGNMC _ => "diag_ggn_mc"
  | .diagHessian => "diag_h"
  | .batchGradTransforms _ => "grad_batch_transforms"

/-- `isinstance(e, BatchGradTransforms)`. -/
def Extension.isBGT : Extension → Bool
  | .batchGradTransforms _ => true
  | _ => false

/-- The transform dictionaries of the `BatchGradTransforms` instances in a
request list. -/
def bgtsOf (ext : List Extension) : List BatchGradTransforms :=
  ext.foldr
    (fun e acc =>
      match e with
      | .batchGradTransforms t => t :: acc
      | _ => acc)
    []

/-- `Cockpit._process_multiple_batch_grad_transforms`
(`backboard/cockpit.py:313-323`): split the request list into
`BatchGradTransforms` instances and the rest; when there is at least one
transform request, append the merge of all of them to the others. -/
def processMultipleBatchGradTransforms (ext : List Extension) :
    Except String (List Extension) :=
  let transforms := bgtsOf ext
  let no_transforms := ext.filter (fun e => ¬ e.isBGT)
  if transforms.isEmpty then
    Except.ok no_transforms
  else
    match mergeBatchGradTransforms transforms with
    | Except.ok merged => Except.ok (no_transforms ++ [.batchGradTransforms merged])
    | Except.error msg => Except.error msg

/-- `Cockpit._process_duplicate_extensions` (`backboard/cockpit.py:288-311`):
walk the request list keeping a dictionary of the extension types already
seen; the first instance of each type is kept, later instances of an
already-seen type are dropped. -/
def processDuplicateExtensions (ext : List Extension) : List Extension :=
  go ext []
where
  /-- The loop of `_process_duplicate_extensions`; `seen` is the key set of
  the source's `ext_dict`. -/
  go : List Extension → List ExtKind → List Extension
    | [], _ => []
    | e :: es, seen =>
      if e.kind ∈ seen then go es seen
      else e :: go es (e.kind :: seen)

/-- The kind of a diagnostic quantity: `isinstance` checks in the source
dispatch on these classes (`quantities.MaxEV`, `quantities.Time`, ...). -/
inductive QKind where
  | alphaOptimized
  | batchGradHistogram1d
  | batchGradHistogram2d
  | distance
  | gradNorm
  | innerProductTest
  | loss
  | maxEV
  | meanGSNR
  | normTest
  | orthogonalityTest
  | ticDiag
  | trace
  | time
deriving DecidableEq, Repr

/-- A quantity instance as the cockpit sees it.  The quantity classes
themselves are outside the aggregation code; the cockpit only calls the
interface embedded here: `extensions(global_step)`, `create_graph
(global_step)`, `is_active(step)`, the accumulated `output` dictionary, and
`isinstance` checks on the class (`kind`).  `qid` models Python object
identity. -/
structure Quantity where
  qid : ℕ
  kind : QKind
  exts : ℕ → List Extension
  create_graph : ℕ → Bool
  is_active : ℕ → Bool
  output : List (ℕ × List (String × ℚ))

instance : Inhabited Quantity :=
  ⟨{ qid := 0, kind := .loss, exts := fun _ => [], create_graph := fun _ => false,
     is_active := fun _ => true, output := [] }⟩

/-- The collection loop of `Cockpit._get_extensions`: `ext = []; for q in
self.quantities: ext += q.extensions(global_step)`. -/
def collectExtensions (quants : List Quantity) (global_step : ℕ) :
    List Extension :=
  quants.foldl (fun acc q => acc ++ q.exts global_step) []

/-- `Cockpit._get_extensions` (`backboard/cockpit.py:77-86`): concatenate
every quantity's extension requests for the step, merge the
`BatchGradTransforms` requests, then drop duplicate extension types. -/
def getExtensions (quants : List Quantity) (global_step : ℕ) :
    Except String (List Extension) := do
  let ext := collectExtensions quants global_step
  let ext ← processMultipleBatchGradTransforms ext
  pure (processDuplicateExtensions ext)

/-- A quantity requesting two named-transform extensions with disjoint
keys within one step; a concrete instance probing the aggregator. -/
def qTwoTransforms : Quantity :=
  ⟨1, .gradNorm,
   fun _ => [.batchGradTransforms ⟨[("x", 0)]⟩, .batchGradTransforms ⟨[("y", 1)]⟩],
   fun _ => false, fun _ => true, []⟩

/-- A concrete `MaxEV` quantity instance. -/
def qMaxEVInst : Quantity := ⟨3, .maxEV, fun _ => [], fun _ => true, fun _ => true, []⟩

/-- A concrete `Loss` quantity instance. -/
def qLossInst : Quantity := ⟨4, .loss, fun _ => [], fun _ => false, fun _ => true, []⟩

/-- A concrete `Time` quantity instance whose schedule never fires. -/
def qTimeNeverActive : Quantity :=
  ⟨5, .time, fun _ => [], fun _ => false, fun _ => false, []⟩

/-- A concrete `Time` quantity instance active at every step. -/
def qTimeAlwaysActive : Quantity :=
  ⟨6, .time, fun _ => [], fun _ => false, fun _ => true, []⟩

/-- A quantity requesting per-sample gradients only. -/
def qBatchGradOnly : Quantity :=
  ⟨7, .gradNorm, fun _ => [.batchGrad], fun _ => true, fun _ => true, []⟩


/-- The context manager returned by `Cockpit.__call__`: either
`contextlib.nullcontext` (no extension is requested from the backend on
entry) or `backpack(*ext)` (entering requests exactly `ext`). -/
inductive BackwardContext where
  | nullcontext
  | backpackContext (ext : List Extension)
deriving DecidableEq, Repr

/-- `Cockpit.__call__` (`backboard/cockpit.py:88-119`): aggregate the
extension requests, record whether any quantity needs the graph retained,
and return `backpack(*ext)` when the list is non-empty, else the
null context.  The result pairs the context with the `create_graph` flag. -/
def cockpitCall (quants : List Quantity) (global_step : ℕ) :
    Except String (BackwardContext × Bool) := do
  let ext ← getExtensions quants global_step
  let create_graph := quants.any (fun q => q.create_graph global_step)
  if ext.isEmpty then
    pure (BackwardContext.nullcontext, create_graph)
  else
    pure (BackwardContext.backpackContext ext, create_graph)

/-- An observable event of `Cockpit.track`: invoking `compute` on the
quantity with a given object identity, or one of the two buffer
reclamation calls.  The numerical effect of `compute` lives in the
quantity classes, outside the orchestration code embedded here. -/
inductive TrackEvent where
  | computeQ (qid : ℕ)
  | freeBuffers
  | freeIo
deriving DecidableEq, Repr

/-- `Cockpit.track` (`backboard/cockpit.py:121-145`) as its trace of
events: `compute` on every quantity that is not an instance of
`quantities.MaxEV` (in list order), then `_free_backpack_buffers` and
`_free_backpack_io`, then `compute` on every `MaxEV` instance. -/
def track (quants : List Quantity) : List TrackEvent :=
  let before_cleanup := quants.filter (fun q => ¬ q.kind = QKind.maxEV)
  let after_cleanup := quants.filter (fun q => q.kind = QKind.maxEV)
  before_cleanup.map (fun q => TrackEvent.computeQ q.qid)
    ++ [TrackEvent.freeBuffers, TrackEvent.freeIo]
    ++ after_cleanup.map (fun q => TrackEvent.computeQ q.qid)

/-- Python's `delattr(obj, field)` on an object whose attribute set is
`fields`: deleting a present field removes it, deleting an absent field
raises `AttributeError`. -/
def delattrField (fields : List String) (field : String) :
    Except String (List String) :=
  if field ∈ fields then
    Except.ok (fields.filter (fun g => ¬ g = field))
  else
    Except.error "AttributeError"

/-- `try: delattr(...) except AttributeError: pass` — the reclamation
code's guarded deletion: absence of the field is swallowed. -/
def tryDelete (fields : List String) (field : String) : List String :=
  match delattrField fields field with
  | Except.ok fields2 => fields2
  | Except.error _ => fields

/-- `Cockpit._free_backpack_buffers` (`backboard/cockpit.py:147-163`):
re-collect the step's extensions, then for every parameter and every
extension delete the extension's `savefield` from the parameter,
swallowing `AttributeError`.  Parameters are embedded by their attribute
sets. -/
def freeBackpackBuffers (quants : List Quantity) (global_step : ℕ)
    (params : List (List String)) : Except String (List (List String)) := do
  let ext ← getExtensions quants global_step
  pure (params.map (fun fields =>
    ext.foldl (fun fs e => tryDelete fs e.savefield) fields))

/-- A PyTorch module tree: each module carries its attribute set and its
list of child modules (`module.children()`). -/
inductive Module where
  | mk : List String → List Module → Module

/-- The attribute set of a module. -/
def Module.fields : Module → List String
  | .mk fs _ => fs

/-- `module.children()`. -/
def Module.children : Module → List Module
  | .mk _ cs => cs

/-- The `io_fields` constant of `_free_backpack_io`. -/
def ioFields : List String := ["input0", "output"]

/-- `has_children(net)` from `_free_backpack_io`. -/
def hasChildren (m : Module) : Bool := ¬ m.children.isEmpty

/-- `remove_module_io(module)`: guarded deletion of each io field. -/
def removeModuleIo (fields : List String) : List String :=
  ioFields.foldl (fun fs field => tryDelete fs field) fields

mutual
/-- `remove_net_io(module)` from `Cockpit._free_backpack_io`
(`backboard/cockpit.py:165-192`): recurse into the children when there are
any, otherwise strip the io fields from the module itself. -/
def removeNetIo : Module → Module
  | .mk fs cs =>
    if cs.isEmpty then .mk (removeModuleIo fs) cs
    else .mk fs (removeNetIoList cs)

/-- `for mod in module.children(): remove_net_io(mod)`. -/
def removeNetIoList : List Module → List Module
  | [] => []
  | c :: cs => removeNetIo c :: removeNetIoList cs
end

mutual
/-- The attribute sets of the leaf modules of a tree, in traversal order. -/
def leafFieldLists : Module → List (List String)
  | .mk fs cs => if cs.isEmpty then [fs] else leafFieldListsOf cs

/-- `leafFieldLists` over a forest. -/
def leafFieldListsOf : List Module → List (List String)
  | [] => []
  | c :: cs => leafFieldLists c ++ leafFieldListsOf cs
end

/-- The `tproblem` argument of `Cockpit.__init__`: the only property of it
the constructor's control flow inspects is `isinstance(tproblem,
TestProblem)`. -/
structure TProblem where
  isTestProblem : Bool
deriving DecidableEq, Repr

/-- An element of the `quantities` constructor argument: a quantity class
(instantiated by the cockpit with the tracking interval) or an already
built instance (`inspect.isclass` distinguishes the two). -/
inductive QuantitySpec where
  | cls (kind : QKind)
  | inst (q : Quantity)

/-- Modelled from the spec: the quantity class constructors live outside
the orchestration code (`backboard/quantities/*.py` is not part of the
aggregation core).  Per §3 of the spec a quantity is built from its kind
and an immutable schedule derived from the tracking interval, with an
empty output mapping. -/
def mkQuantity (kind : QKind) (track_interval : ℕ) : Quantity :=
  { qid := 0
    kind := kind
    exts := fun _ => []
    create_graph := fun _ => false
    is_active := fun step => step % track_interval = 0
    output := [] }

/-- `Cockpit.default_quantities` (`backboard/cockpit.py:21-37`). -/
def defaultQuantities : List QuantitySpec :=
  [ .cls .alphaOptimized, .cls .batchGradHistogram1d, .cls .batchGradHistogram2d,
    .cls .distance, .cls .gradNorm, .cls .innerProductTest, .cls .loss,
    .cls .maxEV, .cls .meanGSNR, .cls .normTest, .cls .orthogonalityTest,
    .cls .ticDiag, .cls .trace ]

/-- `Cockpit._collect_quantities` (`backboard/cockpit.py:263-286`): default
to the full list when `None` was passed, instantiate classes with the
tracking interval, keep instances as they are. -/
def collectQuantities (cockpit_quantities : Option (List QuantitySpec))
    (track_interval : ℕ) : List Quantity :=
  (cockpit_quantities.getD defaultQuantities).map
    (fun s =>
      match s with
      | .cls k => mkQuantity k track_interval
      | .inst q => q)

/-- The cockpit state built by a successful `Cockpit.__init__`. -/
structure CockpitState where
  logpath : String
  track_interval : ℕ
  quants : List Quantity
  createGraph : Bool
  output : List (ℕ × List (String × ℚ))

/-- `Cockpit.__init__` (`backboard/cockpit.py:39-75`): store the arguments,
collect the quantities, then extend the test problem — raising
`NotImplementedError` when `tproblem` is not a `deepobs` `TestProblem` —
and only then prepare the log path and the plotter (both external
side effects that produce no state inspected here). -/
def cockpitInit (tproblem : TProblem) (logpath : String) (track_interval : ℕ)
    (quants : Option (List QuantitySpec)) : Except String CockpitState :=
  let qs := collectQuantities quants track_interval
  if tproblem.isTestProblem then
    Except.ok
      { logpath := logpath, track_interval := track_interval, quants := qs,
        createGraph := false, output := [] }
  else
    Except.error "NotImplementedError"

/-- `_check_timer` (`backboard/benchmark/benchmark.py:13-24`): exactly one
`Time` quantity is required, and it must be active at step `0` and at step
`max_steps`; the loop over `[0, max_steps]` raises at the first inactive
step. -/
def checkTimer (quants : List Quantity) (max_steps : ℕ) : Except String Unit :=
  match quants.filter (fun q => q.kind = QKind.time) with
  | [timer] =>
    -- `num_timers == 1`, and `timer = timers[0]`
    if ¬ timer.is_active 0 then
      Except.error "Time quantity must track at step 0"
    else if ¬ timer.is_active max_steps then
      Except.error ("Time quantity must track at step " ++ toString max_steps)
    else
      Except.ok ()
  | timers =>
    Except.error ("Got " ++ toString timers.length ++ " Time quantities. Expect 1.")

/-- `_check_quantities` (`backboard/benchmark/benchmark.py:27-36`): every
quantity must still have its freshly initialized (empty) output mapping. -/
def checkQuantities : List Quantity → Except String Unit
  | [] => Except.ok ()
  | q :: qs =>
    if ¬ q.output = [] then
      Except.error "Quantity has already been used or not been initialized"
    else
      checkQuantities qs

/-- `run_benchmark` (`backboard/benchmark/benchmark.py:81-114`): run the
two checks first; the construction of the runner, the training run and the
extraction of the average time are external collaborators, embedded as the
`restOfRun` computation that is only reached when both checks pass. -/
def runBenchmark (quants : List Quantity) (max_steps : ℕ)
    (restOfRun : Except String ℚ) : Except String ℚ := do
  checkTimer quants max_steps
  checkQuantities quants
  restOfRun

/-- Determinant of a 3×3 matrix given row-wise. -/
def det3 (a11 a12 a13 a21 a22 a23 a31 a32 a33 : ℚ) : ℚ :=
  a11 * (a22 * a33 - a23 * a32)
    - a12 * (a21 * a33 - a23 * a31)
    + a13 * (a21 * a32 - a22 * a31)

/-- Modelled from the spec: `_fit_quadratic` of
`backboard/quantities/alpha.py` is not under `src/` (only its tests are).
Per §4.2 of the spec, the routine expresses the two loss observations
`f0, f1` (at positions `0` and `t`) and the two directional-derivative
observations `d0, d1` as linear functions of the three model parameters
`mu = (b, c, e)`, weighs each of the four equations by the inverse of its
observation variance, and solves the weighted normal equations — here by
Cramer's rule over exact rationals.  The polynomial is `f(x) = b + c*x +
e*x^2` with derivative `c + 2*e*x`, the parametrization fixed by the four
calibration cases of §8 (e.g. `fs=[1,0.5], dfs=[-1,0]` must fit
`(1,-1,0.5)`).  Per the §4.2 edge case, a numerically vanishing step size
(`|t| ≤ 1e-8`, covering the `1e-10` of §8 but not ordinary steps) is
special-cased to the degenerate fit `(f0, d0, 0)` — one point's value and
derivative with zero curvature — instead of inverting a singular matrix. -/
def fitQuadratic (t : ℚ) (fs dfs fs_var dfs_var : ℚ × ℚ) : ℚ × ℚ × ℚ :=
  if |t| ≤ 1 / 100000000 then
    (fs.1, dfs.1, 0)
  else
    let w1 := 1 / fs_var.1
    let w2 := 1 / fs_var.2
    let w3 := 1 / dfs_var.1
    let w4 := 1 / dfs_var.2
    -- normal-equation matrix  M = Phi^T W Phi  for the observation rows
    -- (1,0,0), (1,t,t^2), (0,1,0), (0,1,2t)
    let m11 := w1 + w2
    let m12 := w2 * t
    let m13 := w2 * t ^ 2
    let m22 := w2 * t ^ 2 + w3 + w4
    let m23 := w2 * t ^ 3 + 2 * w4 * t
    let m33 := w2 * t ^ 4 + 4 * w4 * t ^ 2
    -- right-hand side  v = Phi^T W y
    let v1 := w1 * fs.1 + w2 * fs.2
    let v2 := w2 * fs.2 * t + w3 * dfs.1 + w4 * dfs.2
    let v3 := w2 * fs.2 * t ^ 2 + 2 * w4 * dfs.2 * t
    let d := det3 m11 m12 m13 m12 m22 m23 m13 m23 m33
    let b := det3 v1 m12 m13 v2 m22 m23 v3 m23 m33 / d
    let c := det3 m11 v1 m13 m12 v2 m23 m13 v3 m33 / d
    let e := det3 m11 m12 v1 m12 m22 v2 m13 m23 v3 / d
    (b, c, e)

/-- Modelled from the spec: `_get_alpha` of `backboard/quantities/alpha.py`
is not under `src/`.  Per §4.2 the local step-size estimate is derived
from the critical point `-c / (2*e)` of the fitted parabola, rescaled to
the step's local coordinate (position `t` relative to the critical point,
so that landing on the minimum gives `0` and walking to the symmetric
point gives `1`), with the sign handling fixed by the §8 calibration
cases: a concave fit (negative curvature) means overshooting and yields
`-1`, and the linear degenerate fit (zero curvature) also yields `-1`. -/
def getAlpha (mu : ℚ × ℚ × ℚ) (t : ℚ) : ℚ :=
  let c := mu.2.1
  let e := mu.2.2
  if e < 0 then -1
  else 2 * t * e / (-c) - 1

/-! ## Theorems -/

/-- C1: the claim says a key collision with the *same* function object in
every map is accepted by `Cockpit._merge_batch_grad_transforms`, but the
code raises `ValueError` for *every* repeated key — here evaluated at the
failing input, two transform maps both binding key `x` to the same
function object (id `0`); a genuinely conflicting pair (ids `0` and `1`)
raises the same error. -/
theorem C1_merge_raises_even_for_same_function :
    mergeBatchGradTransforms [⟨[("x", 0)]⟩, ⟨[("x", 0)]⟩]
        = Except.error ("Found non-unique transforms: "
            ++ toString (["x", "x"] : List String))
      ∧ mergeBatchGradTransforms [⟨[("x", 0)]⟩, ⟨[("x", 1)]⟩]
        = Except.error ("Found non-unique transforms: "
            ++ toString (["x", "x"] : List String)) :=
  ⟨rfl, rfl⟩

/-- C6: the quadratic fit is exact on the four noise-free calibration
scenarios with step size `t = 1` and variances `1e-10`, returning the fits
`(1,-1,0.5)`, `(1,-1,1)`, `(1,-1,0)` and `(1,0,-0.5)`, and `_get_alpha` on
these fits yields `0`, `1`, `-1` and `-1` (exactly, in the rational
model). -/
theorem C6_fit_quadratic_calibration :
    fitQuadratic 1 (1, 1/2) (-1, 0) (1/10000000000, 1/10000000000)
        (1/10000000000, 1/10000000000) = (1, -1, 1/2)
      ∧ fitQuadratic 1 (1, 1) (-1, 1) (1/10000000000, 1/10000000000)
        (1/10000000000, 1/10000000000) = (1, -1, 1)
      ∧ fitQuadratic 1 (1, 0) (-1, -1) (1/10000000000, 1/10000000000)
        (1/10000000000, 1/10000000000) = (1, -1, 0)
      ∧ fitQuadratic 1 (1, 1/2) (0, -1) (1/10000000000, 1/10000000000)
        (1/10000000000, 1/10000000000) = (1, 0, -1/2)
      ∧ getAlpha (1, -1, 1/2) 1 = 0
      ∧ getAlpha (1, -1, 1) 1 = 1
      ∧ getAlpha (1, -1, 0) 1 = -1
      ∧ getAlpha (1, 0, -1/2) 1 = -1 := by
  refine ⟨?_, ?_, ?_, ?_, ?_, ?_, ?_, ?_⟩ <;>
    norm_num [fitQuadratic, getAlpha, det3]

/-- C7: with the numerically vanishing step size `t = 1e-10` and matching
observations `fs = (1,1)`, `dfs = (-1,-1)` the fit takes the non-singular
degenerate branch and returns `(1, -1, 0)` — one point's value and
derivative with zero curvature — and `_get_alpha` on that fit at that step
size yields `-1`. -/
theorem C7_fit_quadratic_small_step :
    fitQuadratic (1/10000000000) (1, 1) (-1, -1) (1/10000000000, 1/10000000000)
        (1/10000000000, 1/10000000000) = (1, -1, 0)
      ∧ getAlpha (1, -1, 0) (1/10000000000) = -1 := by
  constructor <;> norm_num [fitQuadratic, getAlpha, det3, abs_of_pos]

/-- Inserting a fresh key into a dictionary appends the binding. -/
theorem dictInsert_not_mem (d : List (String × ℕ)) (k : String) (v : ℕ)
    (h : k ∉ d.map Prod.fst) : dictInsert d k v = d ++ [(k, v)] := by
  have hany : d.any (fun p => p.1 = k) = false := by
    rw [List.any_eq_false]
    intro p hp
    simp only [decide_eq_true_eq]
    intro hpk
    exact h (List.mem_map.mpr ⟨p, hp, hpk⟩)
  simp [dictInsert, hany]

/-- Updating a dictionary with a map whose keys are fresh and distinct
appends the whole map. -/
theorem dictUpdate_of_disjoint (t : List (String × ℕ)) :
    ∀ d : List (String × ℕ), (t.map Prod.fst).Nodup →
      (∀ k ∈ t.map Prod.fst, k ∉ d.map Prod.fst) →
      dictUpdate d t = d ++ t := by
  induction t with
  | nil => intro d _ _; simp [dictUpdate]
  | cons p rest ih =>
    intro d hnd hdisj
    have hstep : dictUpdate d (p :: rest) =
        dictUpdate (dictInsert d p.1 p.2) rest := rfl
    rw [hstep, dictInsert_not_mem d p.1 p.2 (hdisj p.1 (by simp))]
    rw [ih (d ++ [(p.1, p.2)])]
    · simp
    · exact (List.nodup_cons.mp (by simpa using hnd)).2
    · intro k hk hmem
      rw [List.map_append, List.mem_append] at hmem
      rcases hmem with hkd | hkp
      · exact hdisj k (by simp [hk]) hkd
      · have hp1 : p.1 ∉ rest.map Prod.fst :=
          (List.nodup_cons.mp (by simpa using hnd)).1
        simp only [List.map_cons, List.map_nil, List.mem_singleton] at hkp
        exact hp1 (hkp ▸ hk)

/-- Folding `dictUpdate` over pairwise key-disjoint maps with distinct keys
concatenates them. -/
theorem foldl_dictUpdate_of_disjoint (ts : List (List (String × ℕ))) :
    ∀ d : List (String × ℕ),
      (∀ t ∈ ts, (t.map Prod.fst).Nodup) →
      ts.Pairwise (fun t1 t2 => ∀ k ∈ t1.map Prod.fst, k ∉ t2.map Prod.fst) →
      (∀ t ∈ ts, ∀ k ∈ t.map Prod.fst, k ∉ d.map Prod.fst) →
      ts.foldl dictUpdate d = d ++ ts.flatten := by
  induction ts with
  | nil => intro d _ _ _; simp
  | cons t rest ih =>
    intro d hnd hpw hd
    rw [List.foldl_cons,
      dictUpdate_of_disjoint t d (hnd t (by simp)) (hd t (by simp)),
      ih (d ++ t) (fun u hu => hnd u (by simp [hu]))
        (List.pairwise_cons.mp hpw).2]
    · simp
    · intro u hu k hk
      simp only [List.map_append, List.mem_append]
      rintro (hkd | hkt)
      · exact hd u (by simp [hu]) k hk hkd
      · exact (List.pairwise_cons.mp hpw).1 u hu k hkt hk

/-- Folding key-list concatenation equals the flattened key lists. -/
theorem foldl_append_keys (ts : List (List (String × ℕ))) :
    ∀ acc : List String,
      ts.foldl (fun ks t => ks ++ t.map Prod.fst) acc
        = acc ++ (ts.map (fun t => t.map Prod.fst)).flatten := by
  induction ts with
  | nil => intro acc; simp
  | cons t rest ih => intro acc; simp [ih]

/-- C2: merging `BatchGradTransforms` requests whose transform maps have
pairwise-disjoint key sets succeeds, and the merged map's key set is
exactly the union of the inputs' key sets, each key bound to the identical
function object it had in its source map. -/
theorem C2_merge_disjoint_is_union (bgts : List BatchGradTransforms)
    (hnd : ∀ b ∈ bgts, (b.transforms.map Prod.fst).Nodup)
    (hdisj : bgts.Pairwise (fun b1 b2 =>
      ∀ k ∈ b1.transforms.map Prod.fst, k ∉ b2.transforms.map Prod.fst)) :
    ∃ m, mergeBatchGradTransforms bgts = Except.ok m
      ∧ (m.transforms.map Prod.fst).Nodup
      ∧ (∀ k, (∃ v, (k, v) ∈ m.transforms)
            ↔ ∃ b ∈ bgts, ∃ v, (k, v) ∈ b.transforms)
      ∧ (∀ b ∈ bgts, ∀ kv ∈ b.transforms, kv ∈ m.transforms) := by
  classical
  set transforms := bgts.map BatchGradTransforms.get_transforms with htr
  have hkeys : transforms.foldl (fun ks t => ks ++ t.map Prod.fst) []
      = (transforms.map (fun t => t.map Prod.fst)).flatten :=
    foldl_append_keys transforms []
  have hkeysNodup : ((transforms.map (fun t => t.map Prod.fst)).flatten).Nodup := by
    rw [List.nodup_flatten]
    constructor
    · intro l hl
      simp only [htr, List.map_map, List.mem_map] at hl
      obtain ⟨b, hb, rfl⟩ := hl
      exact hnd b hb
    · rw [htr, List.map_map, List.pairwise_map]
      refine hdisj.imp ?_
      intro b1 b2 h k hk1 hk2
      exact h k hk1 hk2
  have hflat : transforms.foldl dictUpdate [] = transforms.flatten := by
    rw [foldl_dictUpdate_of_disjoint transforms []]
    · simp
    · intro t ht
      simp only [htr, List.mem_map] at ht
      obtain ⟨b, hb, rfl⟩ := ht
      exact hnd b hb
    · rw [htr, List.pairwise_map]
      refine hdisj.imp ?_
      intro b1 b2 h k hk1 hk2
      exact h k hk1 hk2
    · intro t _ k _
      simp
  refine ⟨⟨transforms.flatten⟩, ?_, ?_, ?_, ?_⟩
  · rw [mergeBatchGradTransforms]
    simp only [← htr, hkeys]
    rw [if_pos, hflat]
    rw [List.dedup_eq_self.mpr hkeysNodup]
  · simpa [List.map_flatten] using hkeysNodup
  · intro k
    constructor
    · rintro ⟨v, hv⟩
      rw [List.mem_flatten] at hv
      obtain ⟨t, ht, hvt⟩ := hv
      simp only [htr, List.mem_map] at ht
      obtain ⟨b, hb, rfl⟩ := ht
      exact ⟨b, hb, v, hvt⟩
    · rintro ⟨b, hb, v, hv⟩
      refine ⟨v, List.mem_flatten.mpr ⟨b.transforms, ?_, hv⟩⟩
      exact List.mem_map.mpr ⟨b, hb, rfl⟩
  · intro b hb kv hkv
    exact List.mem_flatten.mpr ⟨b.transforms, List.mem_map.mpr ⟨b, hb, rfl⟩, hkv⟩

/-- C2 witness: the merge of the claim's shape at the concrete input of
`test_merge_batch_grad_transforms` — two maps with keys `x, y` and `v, w`
— succeeds with the four-key union preserving every binding. -/
theorem C2_merge_disjoint_is_union_witness :
    ∃ m, mergeBatchGradTransforms
        [⟨[("x", 0), ("y", 1)]⟩, ⟨[("v", 2), ("w", 3)]⟩] = Except.ok m
      ∧ (m.transforms.map Prod.fst).Nodup
      ∧ (∀ k, (∃ v, (k, v) ∈ m.transforms)
            ↔ ∃ b ∈ ([⟨[("x", 0), ("y", 1)]⟩, ⟨[("v", 2), ("w", 3)]⟩] :
                List BatchGradTransforms), ∃ v, (k, v) ∈ b.transforms)
      ∧ (∀ b ∈ ([⟨[("x", 0), ("y", 1)]⟩, ⟨[("v", 2), ("w", 3)]⟩] :
            List BatchGradTransforms), ∀ kv ∈ b.transforms, kv ∈ m.transforms) :=
  C2_merge_disjoint_is_union [⟨[("x", 0), ("y", 1)]⟩, ⟨[("v", 2), ("w", 3)]⟩]
    (by decide) (by decide)

/-- An extension is a `BatchGradTransforms` instance exactly when its type
is the `BatchGradTransforms` kind. -/
theorem isBGT_iff_kind (e : Extension) :
    e.isBGT = true ↔ e.kind = ExtKind.batchGradTransformsK := by
  cases e <;> simp [Extension.isBGT, Extension.kind]

/-- The deduplication loop keeps, for each extension type not yet seen,
exactly the first instance of that type. -/
theorem processDuplicateExtensions_go_filter (es : List Extension) :
    ∀ (seen : List ExtKind) (k : ExtKind),
      (processDuplicateExtensions.go es seen).filter (fun e => e.kind = k)
        = if k ∈ seen then [] else (es.filter (fun e => e.kind = k)).take 1 := by
  induction es with
  | nil => intro seen k; simp [processDuplicateExtensions.go]
  | cons e rest ih =>
    intro seen k
    rw [processDuplicateExtensions.go]
    by_cases hk : e.kind = k
    · subst hk
      by_cases hseen : e.kind ∈ seen
      · simp [hseen, ih seen e.kind]
      · simp [hseen, ih (e.kind :: seen) e.kind, List.filter_cons]
    · have hk2 : ¬ k = e.kind := fun hc => hk hc.symm
      by_cases hseen : e.kind ∈ seen
      · simp [hseen, ih seen k, List.filter_cons, hk]
      · simp [hseen, ih (e.kind :: seen) k, List.filter_cons, hk, hk2]

/-- The aggregated list of `_get_extensions` keeps, for every extension
type, exactly the first instance of that type among the inputs to the
deduplication pass. -/
theorem processDuplicateExtensions_filter (es : List Extension) (k : ExtKind) :
    (processDuplicateExtensions es).filter (fun e => e.kind = k)
      = (es.filter (fun e => e.kind = k)).take 1 := by
  rw [processDuplicateExtensions, processDuplicateExtensions_go_filter es [] k,
    if_neg (List.not_mem_nil k)]

/-- Filtering a non-transform kind is unchanged by the transform-merging
pass. -/
theorem processMultipleBGT_filter_other (ext ext2 : List Extension)
    (k : ExtKind) (hk : k ≠ ExtKind.batchGradTransformsK)
    (h : processMultipleBatchGradTransforms ext = Except.ok ext2) :
    ext2.filter (fun e => e.kind = k) = ext.filter (fun e => e.kind = k) := by
  have hbase : (ext.filter (fun e => ¬ e.isBGT)).filter (fun e => e.kind = k)
      = ext.filter (fun e => e.kind = k) := by
    rw [List.filter_filter]
    apply List.filter_congr
    intro e _
    by_cases he : e.kind = k
    · have : e.isBGT = false := by
        rw [← Bool.not_eq_true]
        intro hb
        exact hk (he ▸ (isBGT_iff_kind e).mp hb)
      simp [he, this]
    · simp [he]
  rw [processMultipleBatchGradTransforms] at h
  by_cases hempty : (bgtsOf ext).isEmpty
  · rw [if_pos hempty] at h
    cases h
    exact hbase
  · rw [if_neg hempty] at h
    cases hmerge : mergeBatchGradTransforms (bgtsOf ext) with
    | ok m =>
      rw [hmerge] at h
      cases h
      rw [List.filter_append, hbase, List.filter_cons_of_neg, List.filter_nil,
        List.append_nil]
      simpa [Extension.kind] using fun h2 => hk h2.symm
    | error msg => rw [hmerge] at h; cases h

/-- The transform-kind instances surviving the transform-merging pass:
none when the input had no transform request, exactly the merged one
otherwise. -/
theorem processMultipleBGT_filter_bgt (ext ext2 : List Extension)
    (h : processMultipleBatchGradTransforms ext = Except.ok ext2) :
    (¬ (bgtsOf ext).isEmpty = true →
        ∃ m, mergeBatchGradTransforms (bgtsOf ext) = Except.ok m
          ∧ ext2.filter (fun e => e.kind = ExtKind.batchGradTransformsK)
              = [Extension.batchGradTransforms m])
      ∧ ((bgtsOf ext).isEmpty = true →
        ext2.filter (fun e => e.kind = ExtKind.batchGradTransformsK) = []) := by
  have hnone : (ext.filter (fun e => ¬ e.isBGT)).filter
      (fun e => e.kind = ExtKind.batchGradTransformsK) = [] := by
    rw [List.filter_filter, List.filter_eq_nil_iff]
    intro e _
    simp [isBGT_iff_kind e]
  rw [processMultipleBatchGradTransforms] at h
  by_cases hempty : (bgtsOf ext).isEmpty
  · rw [if_pos hempty] at h
    cases h
    exact ⟨fun hc => absurd hempty hc, fun _ => hnone⟩
  · rw [if_neg hempty] at h
    cases hmerge : mergeBatchGradTransforms (bgtsOf ext) with
    | ok m =>
      rw [hmerge] at h
      cases h
      refine ⟨fun _ => ⟨m, rfl, ?_⟩, fun hc => absurd hc hempty⟩
      rw [List.filter_append, hnone, List.nil_append,
        List.filter_cons_of_pos (by simp [Extension.kind]), List.filter_nil]
    | error msg => rw [hmerge] at h; cases h

/-- Inverting the `do`-pipeline of `_get_extensions`. -/
theorem getExtensions_ok (quants : List Quantity) (global_step : ℕ)
    (res : List Extension)
    (h : getExtensions quants global_step = Except.ok res) :
    ∃ ext2, processMultipleBatchGradTransforms
        (collectExtensions quants global_step) = Except.ok ext2
      ∧ res = processDuplicateExtensions ext2 := by
  rw [getExtensions] at h
  cases hp : processMultipleBatchGradTransforms
      (collectExtensions quants global_step) with
  | ok ext2 =>
    refine ⟨ext2, rfl, ?_⟩
    rw [hp] at h
    simpa [Except.bind, Except.pure] using h.symm
  | error msg =>
    rw [hp] at h
    simp [Except.bind] at h

/-- C3 counterexample: a step collecting two `BatchGradTransforms`
requests (disjoint keys `x` and `y`).  The aggregated list holds a single
request of that kind, but it is the *merged* request, not the first
occurrence — the first occurrence is absent from the aggregate and the
later duplicate's binding was incorporated, not discarded. -/
theorem C3_first_occurrence_counterexample :
    collectExtensions [qTwoTransforms] 0
        = [Extension.batchGradTransforms ⟨[("x", 0)]⟩,
           Extension.batchGradTransforms ⟨[("y", 1)]⟩]
      ∧ getExtensions [qTwoTransforms] 0
        = Except.ok [Extension.batchGradTransforms ⟨[("x", 0), ("y", 1)]⟩]
      ∧ Extension.batchGradTransforms ⟨[("x", 0)]⟩
        ∉ [Extension.batchGradTransforms ⟨[("x", 0), ("y", 1)]⟩] :=
  ⟨rfl, rfl, by decide⟩

/-- C3 (amended): whenever `_get_extensions` succeeds, each non-transform
kind retains exactly its first collected occurrence (later duplicates
discarded), while the `BatchGradTransforms` requests are replaced by the
single merged request (none when no transform was collected). -/
theorem C3_dedup_keeps_first_per_kind (quants : List Quantity)
    (global_step : ℕ) (res : List Extension)
    (h : getExtensions quants global_step = Except.ok res) :
    (∀ k, k ≠ ExtKind.batchGradTransformsK →
        res.filter (fun e => e.kind = k)
          = ((collectExtensions quants global_step).filter
              (fun e => e.kind = k)).take 1)
      ∧ (¬ (bgtsOf (collectExtensions quants global_step)).isEmpty = true →
          ∃ m, mergeBatchGradTransforms
              (bgtsOf (collectExtensions quants global_step)) = Except.ok m
            ∧ res.filter (fun e => e.kind = ExtKind.batchGradTransformsK)
                = [Extension.batchGradTransforms m])
      ∧ ((bgtsOf (collectExtensions quants global_step)).isEmpty = true →
          res.filter (fun e => e.kind = ExtKind.batchGradTransformsK) = []) := by
  obtain ⟨ext2, hp, hres⟩ := getExtensions_ok quants global_step res h
  subst hres
  refine ⟨?_, ?_, ?_⟩
  · intro k hk
    rw [processDuplicateExtensions_filter,
      processMultipleBGT_filter_other (collectExtensions quants global_step)
        ext2 k hk hp]
  · intro hne
    obtain ⟨m, hm, hfil⟩ := (processMultipleBGT_filter_bgt _ _ hp).1 hne
    refine ⟨m, hm, ?_⟩
    rw [processDuplicateExtensions_filter, hfil]
    simp
  · intro hemp
    rw [processDuplicateExtensions_filter,
      (processMultipleBGT_filter_bgt _ _ hp).2 hemp]
    simp

/-- C3 witness: the amended statement applied at two duplicate `BatchGrad`
requests and one `DiagHessian` request: the aggregate keeps the first
`BatchGrad` only, and there is no transform-kind request. -/
theorem C3_dedup_keeps_first_per_kind_witness :
    (∀ k, k ≠ ExtKind.batchGradTransformsK →
        ([Extension.batchGrad, Extension.diagHessian] :
            List Extension).filter (fun e => e.kind = k)
          = ((collectExtensions
                [⟨2, .gradNorm,
                  fun _ => [Extension.batchGrad, Extension.batchGrad,
                    Extension.diagHessian],
                  fun _ => false, fun _ => true, []⟩] 0).filter
              (fun e => e.kind = k)).take 1)
      ∧ (¬ (bgtsOf (collectExtensions
            [⟨2, .gradNorm,
              fun _ => [Extension.batchGrad, Extension.batchGrad,
                Extension.diagHessian],
              fun _ => false, fun _ => true, []⟩] 0)).isEmpty = true →
          ∃ m, mergeBatchGradTransforms
              (bgtsOf (collectExtensions
                [⟨2, .gradNorm,
                  fun _ => [Extension.batchGrad, Extension.batchGrad,
                    Extension.diagHessian],
                  fun _ => false, fun _ => true, []⟩] 0)) = Except.ok m
            ∧ ([Extension.batchGrad, Extension.diagHessian] :
                List Extension).filter
                (fun e => e.kind = ExtKind.batchGradTransformsK)
                = [Extension.batchGradTransforms m])
      ∧ ((bgtsOf (collectExtensions
            [⟨2, .gradNorm,
              fun _ => [Extension.batchGrad, Extension.batchGrad,
                Extension.diagHessian],
              fun _ => false, fun _ => true, []⟩] 0)).isEmpty = true →
          ([Extension.batchGrad, Extension.diagHessian] :
              List Extension).filter
              (fun e => e.kind = ExtKind.batchGradTransformsK) = []) :=
  C3_dedup_keeps_first_per_kind
    [⟨2, .gradNorm,
      fun _ => [Extension.batchGrad, Extension.batchGrad, Extension.diagHessian],
      fun _ => false, fun _ => true, []⟩] 0
    [Extension.batchGrad, Extension.diagHessian] rfl

/-- C4: the trace of `Cockpit.track` splits into a phase of `compute`
calls on exactly the non-`MaxEV` quantities, then the two buffer
reclamation calls, then a phase of `compute` calls on exactly the `MaxEV`
quantities: every non-eigen compute precedes reclamation, every eigen
compute follows it, reclamation happens exactly once, and no `MaxEV`
compute ever precedes reclamation. -/
theorem C4_track_two_phase (quants : List Quantity) :
    ∃ pre post,
      track quants = pre ++ [TrackEvent.freeBuffers, TrackEvent.freeIo] ++ post
      ∧ (∀ e ∈ pre, ∃ q ∈ quants, ¬ q.kind = QKind.maxEV
          ∧ e = TrackEvent.computeQ q.qid)
      ∧ (∀ e ∈ post, ∃ q ∈ quants, q.kind = QKind.maxEV
          ∧ e = TrackEvent.computeQ q.qid)
      ∧ (∀ q ∈ quants, ¬ q.kind = QKind.maxEV →
          TrackEvent.computeQ q.qid ∈ pre)
      ∧ (∀ q ∈ quants, q.kind = QKind.maxEV →
          TrackEvent.computeQ q.qid ∈ post)
      ∧ TrackEvent.freeBuffers ∉ pre ∧ TrackEvent.freeBuffers ∉ post
      ∧ TrackEvent.freeIo ∉ pre ∧ TrackEvent.freeIo ∉ post := by
  refine ⟨(quants.filter (fun q => ¬ q.kind = QKind.maxEV)).map
      (fun q => TrackEvent.computeQ q.qid),
    (quants.filter (fun q => q.kind = QKind.maxEV)).map
      (fun q => TrackEvent.computeQ q.qid),
    ?_, ?_, ?_, ?_, ?_, ?_, ?_, ?_, ?_⟩
  · rfl
  · intro e he
    obtain ⟨q, hq, rfl⟩ := List.mem_map.mp he
    obtain ⟨hq2, hq3⟩ := List.mem_filter.mp hq
    exact ⟨q, hq2, by simpa using hq3, rfl⟩
  · intro e he
    obtain ⟨q, hq, rfl⟩ := List.mem_map.mp he
    obtain ⟨hq2, hq3⟩ := List.mem_filter.mp hq
    exact ⟨q, hq2, by simpa using hq3, rfl⟩
  · intro q hq hkind
    exact List.mem_map.mpr ⟨q, List.mem_filter.mpr ⟨hq, by simpa using hkind⟩, rfl⟩
  · intro q hq hkind
    exact List.mem_map.mpr ⟨q, List.mem_filter.mpr ⟨hq, by simpa using hkind⟩, rfl⟩
  · intro hc; obtain ⟨q, _, hq⟩ := List.mem_map.mp hc; cases hq
  · intro hc; obtain ⟨q, _, hq⟩ := List.mem_map.mp hc; cases hq
  · intro hc; obtain ⟨q, _, hq⟩ := List.mem_map.mp hc; cases hq
  · intro hc; obtain ⟨q, _, hq⟩ := List.mem_map.mp hc; cases hq

/-- C4 witness: the two-phase decomposition applied to a concrete cockpit
holding one `MaxEV` quantity and one `Loss` quantity. -/
theorem C4_track_two_phase_witness :
    ∃ pre post,
      track [qMaxEVInst, qLossInst]
        = pre ++ [TrackEvent.freeBuffers, TrackEvent.freeIo] ++ post
      ∧ (∀ e ∈ pre, ∃ q ∈ [qMaxEVInst, qLossInst], ¬ q.kind = QKind.maxEV
          ∧ e = TrackEvent.computeQ q.qid)
      ∧ (∀ e ∈ post, ∃ q ∈ [qMaxEVInst, qLossInst], q.kind = QKind.maxEV
          ∧ e = TrackEvent.computeQ q.qid)
      ∧ (∀ q ∈ [qMaxEVInst, qLossInst], ¬ q.kind = QKind.maxEV →
          TrackEvent.computeQ q.qid ∈ pre)
      ∧ (∀ q ∈ [qMaxEVInst, qLossInst], q.kind = QKind.maxEV →
          TrackEvent.computeQ q.qid ∈ post)
      ∧ TrackEvent.freeBuffers ∉ pre ∧ TrackEvent.freeBuffers ∉ post
      ∧ TrackEvent.freeIo ∉ pre ∧ TrackEvent.freeIo ∉ post :=
  C4_track_two_phase [qMaxEVInst, qLossInst]

/-- Guarded deletion removes the deleted field. -/
theorem tryDelete_not_mem (fields : List String) (field : String) :
    field ∉ tryDelete fields field := by
  by_cases h : field ∈ fields
  · rw [tryDelete, delattrField, if_pos h]
    intro hc
    obtain ⟨-, hne⟩ := List.mem_filter.mp hc
    simp at hne
  · rw [tryDelete, delattrField, if_neg h]
    exact h

/-- Guarded deletion never introduces a field. -/
theorem tryDelete_preserves_not_mem (fields : List String) (field g : String)
    (h : g ∉ fields) : g ∉ tryDelete fields field := by
  by_cases hf : field ∈ fields
  · rw [tryDelete, delattrField, if_pos hf]
    intro hc
    exact h (List.mem_filter.mp hc).1
  · rw [tryDelete, delattrField, if_neg hf]
    exact h

/-- A field absent from the attribute set stays absent under the
savefield-deletion fold of `_free_backpack_buffers`. -/
theorem foldl_tryDelete_preserves_not_mem (ext : List Extension) :
    ∀ (fields : List String) (g : String), g ∉ fields →
      g ∉ ext.foldl (fun fs e => tryDelete fs e.savefield) fields := by
  induction ext with
  | nil => intro fields g h; simpa using h
  | cons e rest ih =>
    intro fields g h
    rw [List.foldl_cons]
    exact ih (tryDelete fields e.savefield) g
      (tryDelete_preserves_not_mem fields e.savefield g h)

/-- After the savefield-deletion fold of `_free_backpack_buffers`, no
extension's savefield remains in the attribute set. -/
theorem foldl_tryDelete_removes (ext : List Extension) :
    ∀ (fields : List String), ∀ e ∈ ext,
      e.savefield ∉ ext.foldl (fun fs e2 => tryDelete fs e2.savefield) fields := by
  induction ext with
  | nil => intro fields e he; simp at he
  | cons e0 rest ih =>
    intro fields e he
    rw [List.foldl_cons]
    rcases List.mem_cons.mp he with heq | hmem
    · subst heq
      by_cases hr : e ∈ rest
      · exact ih (tryDelete fields e.savefield) e hr
      · exact foldl_tryDelete_preserves_not_mem rest
          (tryDelete fields e.savefield) e.savefield
          (tryDelete_not_mem fields e.savefield)
    · exact ih (tryDelete fields e0.savefield) e hmem

/-- `remove_module_io` strips both io fields. -/
theorem removeModuleIo_clean (fields : List String) :
    "input0" ∉ removeModuleIo fields ∧ "output" ∉ removeModuleIo fields := by
  constructor
  · exact tryDelete_preserves_not_mem _ _ _ (tryDelete_not_mem fields "input0")
  · exact tryDelete_not_mem _ _

mutual
/-- After `remove_net_io`, no leaf module of the tree carries an io
field. -/
theorem removeNetIo_clean : ∀ (m : Module),
    ∀ fs ∈ leafFieldLists (removeNetIo m), "input0" ∉ fs ∧ "output" ∉ fs
  | .mk flds cs => by
    intro fs hfs
    by_cases hcs : cs.isEmpty
    · rw [removeNetIo, if_pos hcs, leafFieldLists] at hfs
      have hcs2 : cs = [] := by simpa [List.isEmpty_iff] using hcs
      rw [if_pos (by simp [hcs2])] at hfs
      rw [List.mem_singleton.mp hfs]
      exact removeModuleIo_clean flds
    · rw [removeNetIo, if_neg hcs, leafFieldLists] at hfs
      have hne : ¬ (removeNetIoList cs).isEmpty = true := by
        cases cs with
        | nil => simp at hcs
        | cons c cs2 => rw [removeNetIoList]; simp
      rw [if_neg hne] at hfs
      exact removeNetIoList_clean cs fs hfs

/-- `removeNetIo_clean` over a forest. -/
theorem removeNetIoList_clean : ∀ (ms : List Module),
    ∀ fs ∈ leafFieldListsOf (removeNetIoList ms),
      "input0" ∉ fs ∧ "output" ∉ fs
  | [] => by intro fs hfs; rw [removeNetIoList] at hfs; simp [leafFieldListsOf] at hfs
  | c :: ms => by
    intro fs hfs
    rw [removeNetIoList, leafFieldListsOf] at hfs
    rcases List.mem_append.mp hfs with h1 | h2
    · exact removeNetIo_clean c fs h1
    · exact removeNetIoList_clean ms fs h2
end

/-- C5: buffer reclamation is total and complete.  Deleting a present
field removes it and deleting an absent field is a swallowed
`AttributeError` (never a failure); whenever the step's extension set is
available, `_free_backpack_buffers` returns (no exception) with every
extension's savefield absent from every parameter; and after
`_free_backpack_io`, the fields `input0` and `output` are absent from
every leaf module of the module tree. -/
theorem C5_reclamation_clean (quants : List Quantity) (global_step : ℕ)
    (params : List (List String)) (ext : List Extension)
    (h : getExtensions quants global_step = Except.ok ext) :
    (∀ (fields : List String) (f : String), f ∉ fields →
        delattrField fields f = Except.error "AttributeError"
          ∧ tryDelete fields f = fields)
      ∧ (∃ res, freeBackpackBuffers quants global_step params = Except.ok res
          ∧ ∀ fs ∈ res, ∀ e ∈ ext, e.savefield ∉ fs)
      ∧ (∀ m : Module, ∀ fs ∈ leafFieldLists (removeNetIo m),
          "input0" ∉ fs ∧ "output" ∉ fs) := by
  refine ⟨?_, ?_, ?_⟩
  · intro fields f hf
    constructor
    · rw [delattrField, if_neg hf]
    · rw [tryDelete, delattrField, if_neg hf]
  · refine ⟨params.map (fun fields =>
        ext.foldl (fun fs e => tryDelete fs e.savefield) fields), ?_, ?_⟩
    · rw [freeBackpackBuffers, h]
      rfl
    · intro fs hfs e he
      obtain ⟨fields, -, rfl⟩ := List.mem_map.mp hfs
      exact foldl_tryDelete_removes ext fields e he
  · exact removeNetIo_clean

/-- C5 witness: reclamation applied to a concrete cockpit (one
per-sample-gradient quantity) and two parameters — one carrying the
materialized `grad_batch` buffer and one without it. -/
theorem C5_reclamation_clean_witness :
    (∀ (fields : List String) (f : String), f ∉ fields →
        delattrField fields f = Except.error "AttributeError"
          ∧ tryDelete fields f = fields)
      ∧ (∃ res, freeBackpackBuffers [qBatchGradOnly] 0
            [["grad_batch", "weight"], ["weight"]] = Except.ok res
          ∧ ∀ fs ∈ res, ∀ e ∈ [Extension.batchGrad], e.savefield ∉ fs)
      ∧ (∀ m : Module, ∀ fs ∈ leafFieldLists (removeNetIo m),
          "input0" ∉ fs ∧ "output" ∉ fs) :=
  C5_reclamation_clean [qBatchGradOnly] 0
    [["grad_batch", "weight"], ["weight"]] [Extension.batchGrad] rfl

/-- C8: constructing the cockpit over a target that is not a supported
training problem fails fast with `NotImplementedError`, whatever the log
path, tracking interval and quantity configuration. -/
theorem C8_init_rejects_non_testproblem (tproblem : TProblem) (logpath : String)
    (track_interval : ℕ) (quants : Option (List QuantitySpec))
    (h : tproblem.isTestProblem = false) :
    cockpitInit tproblem logpath track_interval quants
      = Except.error "NotImplementedError" := by
  rw [cockpitInit, if_neg]
  rw [h]
  simp

/-- C8 witness: the rejection at a concrete non-training-problem target. -/
theorem C8_init_rejects_non_testproblem_witness :
    (⟨false⟩ : TProblem).isTestProblem = false
      ∧ cockpitInit ⟨false⟩ "log" 1 none = Except.error "NotImplementedError" :=
  ⟨rfl, C8_init_rejects_non_testproblem ⟨false⟩ "log" 1 none rfl⟩

/-- C9: the benchmark harness demands exactly one `Time` quantity — any
other count aborts `run_benchmark` with a `ValueError` naming the count,
before anything external runs — and with exactly one `Time` quantity it
aborts when that quantity is inactive at step `0` or at step
`max_steps`. -/
theorem C9_benchmark_requires_single_timer (quants : List Quantity)
    (max_steps : ℕ) (restOfRun : Except String ℚ) :
    (¬ (quants.filter (fun q => q.kind = QKind.time)).length = 1 →
        runBenchmark quants max_steps restOfRun
          = Except.error ("Got "
              ++ toString (quants.filter (fun q => q.kind = QKind.time)).length
              ++ " Time quantities. Expect 1."))
      ∧ (∀ timer, quants.filter (fun q => q.kind = QKind.time) = [timer] →
          ¬ timer.is_active 0 = true →
          runBenchmark quants max_steps restOfRun
            = Except.error "Time quantity must track at step 0")
      ∧ (∀ timer, quants.filter (fun q => q.kind = QKind.time) = [timer] →
          timer.is_active 0 = true → ¬ timer.is_active max_steps = true →
          runBenchmark quants max_steps restOfRun
            = Except.error ("Time quantity must track at step "
                ++ toString max_steps)) := by
  refine ⟨?_, ?_, ?_⟩
  · intro hn
    rw [runBenchmark]
    cases htm : quants.filter (fun q => q.kind = QKind.time) with
    | nil =>
      rw [checkTimer, htm]
      simp [Bind.bind, Except.bind]
    | cons t ts =>
      cases ts with
      | nil => exact absurd (by rw [htm]; rfl) hn
      | cons t2 ts2 =>
        rw [checkTimer, htm]
        simp [Bind.bind, Except.bind]
  · intro timer hfil h0
    rw [runBenchmark, checkTimer, hfil]
    simp [h0, Bind.bind, Except.bind]
  · intro timer hfil h0 hmax
    rw [runBenchmark, checkTimer, hfil]
    simp [h0, hmax, Bind.bind, Except.bind]

/-- C9 witness: a quantity list with no `Time` quantity aborts with the
count `0`, and a single never-active `Time` quantity aborts at step `0` —
both via the theorem at concrete inputs. -/
theorem C9_benchmark_requires_single_timer_witness :
    runBenchmark [qLossInst] 5 (Except.ok 0)
        = Except.error "Got 0 Time quantities. Expect 1."
      ∧ runBenchmark [qTimeNeverActive] 5 (Except.ok 0)
        = Except.error "Time quantity must track at step 0" :=
  ⟨(C9_benchmark_requires_single_timer [qLossInst] 5 (Except.ok 0)).1
      (by decide),
   (C9_benchmark_requires_single_timer [qTimeNeverActive] 5
      (Except.ok 0)).2.1 qTimeNeverActive rfl (by decide)⟩

/-- C10: when the step's aggregated extension list is empty,
`Cockpit.__call__` returns the null context (entering it requests nothing
from the backend); when it is non-empty, it returns a backpack context
built from exactly that list — in both cases together with the collected
`create_graph` flag. -/
theorem C10_call_null_or_backpack (quants : List Quantity) (global_step : ℕ)
    (ext : List Extension)
    (h : getExtensions quants global_step = Except.ok ext) :
    (ext = [] → cockpitCall quants global_step
        = Except.ok (BackwardContext.nullcontext,
            quants.any (fun q => q.create_graph global_step)))
      ∧ (¬ ext = [] → cockpitCall quants global_step
        = Except.ok (BackwardContext.backpackContext ext,
            quants.any (fun q => q.create_graph global_step))) := by
  constructor
  · intro hx
    subst hx
    rw [cockpitCall, h]
    rfl
  · intro hx
    rw [cockpitCall, h]
    have : ext.isEmpty = false := by
      cases ext with
      | nil => exact absurd rfl hx
      | cons e es => rfl
    simp [Bind.bind, Except.bind, Pure.pure, Except.pure, this]

/-- C10 witness: a cockpit with no extension request yields the null
context, and one requesting per-sample gradients yields the backpack
context over exactly that request — both via the theorem at concrete
inputs. -/
theorem C10_call_null_or_backpack_witness :
    cockpitCall [qLossInst] 0
        = Except.ok (BackwardContext.nullcontext, false)
      ∧ cockpitCall [qBatchGradOnly] 0
        = Except.ok (BackwardContext.backpackContext [Extension.batchGrad], true) :=
  ⟨(C10_call_null_or_backpack [qLossInst] 0 [] rfl).1 rfl,
   (C10_call_null_or_backpack [qBatchGradOnly] 0 [Extension.batchGrad] rfl).2
     (by decide)⟩

end Backboard
